import Mathlib

/-!
Verification development for the `modelo_reset` transit-route planning core
(`src/modelo_reset/core/network_design.py` and `src/modelo_reset/core/ag.py`).

Conventions of the shallow embedding:

* Coordinates and weights are exact rationals (`ℚ`); the Python code uses
  IEEE doubles, but every claim here is about exact arithmetic identities
  and inequalities of the formulas, which the rational model captures.
* The geometry engine (shapely) is an external collaborator.  Its
  point-to-point `.distance` primitive is modelled as an explicit function
  parameter `d : Point → Point → ℚ`; concrete scenarios instantiate `d`
  with an exact distance function for the points involved.
* `networkx` is an external library.  `nx.dijkstra_path` is modelled by an
  executable depth-first path search `dijkstraPath`; the model is proved
  sound and complete for path existence (`Relation.ReflTransGen` over the
  edge relation), returns `[s]` when source = target, and returns a path
  with ≥ 2 nodes otherwise — exactly the facts about `dijkstra_path` that
  the embedded repository code relies on.  Which shortest path is returned
  (weight optimality) is not used by any claim and is not modelled.
* Fallible Python code (raised exceptions) is embedded with
  `Option`/`Except`: `none`/`.error` marks the raising execution path.
-/

namespace ModeloReset

/-- A 2-D point in the projected metric CRS (shapely `Point` / graph node). -/
abbrev Point := ℚ × ℚ

/-- Graph nodes are coordinate tuples `(x, y)`, exactly as in the Python
code, where `nx` nodes are the coordinate tuples of segment endpoints. -/
abbrev Node := Point

/-- Neighborhood development classification (`tipo_polo` column values). -/
inductive TipoBairro where
  | Emergente
  | Consolidado
  | Planejado
  | Nenhum
  deriving DecidableEq, Repr

/-- `_desconto_ponto_articulacao` (network_design.py:52-58):
`max(0, 1 - distancia/1000) * 0.4`. -/
def desconto_ponto_articulacao (distancia : ℚ) : ℚ :=
  max 0 (1 - distancia / 1000) * 0.4

/-- `_desconto_polo` (network_design.py:61-66):
`max(0, 1 - distancia/raio_influencia) * max_desconto`. -/
def desconto_polo (distancia : ℚ) (raio_influencia : ℚ) (max_desconto : ℚ) : ℚ :=
  max 0 (1 - distancia / raio_influencia) * max_desconto

/-- The `(raio_influencia, max_desconto)` pair selected by the `if/elif`
chain on `tipo_bairro` in `calcular_peso_atrativo` (network_design.py:30-41). -/
def parametros_polo : TipoBairro → ℚ × ℚ
  | .Emergente => (2000, 0.5)
  | .Consolidado => (1500, 0.3)
  | .Planejado => (1000, 0.1)
  | .Nenhum => (1, 0.0)

/-- `calcular_peso_atrativo` (network_design.py:23-49).  `d` is the
shapely `.distance` primitive, passed explicitly. -/
def calcular_peso_atrativo (d : Point → Point → ℚ)
    (ponto_articulacao ponto_aresta centroid_bairro : Point)
    (peso_original : ℚ) (tipo_bairro : TipoBairro) : ℚ :=
  let distancia_articulacao := d ponto_articulacao ponto_aresta
  let desconto_articulacao := desconto_ponto_articulacao distancia_articulacao
  let p := parametros_polo tipo_bairro
  let distancia_polo := d centroid_bairro ponto_aresta
  let desconto_polo' := desconto_polo distancia_polo p.1 p.2
  let desconto_total := desconto_articulacao + desconto_polo' -
    desconto_articulacao * desconto_polo'
  let peso_final := peso_original * (1 - desconto_total)
  max peso_final 0.1

section PesoBounds

/-- The articulation discount lies in `[0, 0.4]` for nonnegative distances. -/
lemma desconto_ponto_articulacao_mem (dist : ℚ) (h : 0 ≤ dist) :
    0 ≤ desconto_ponto_articulacao dist ∧ desconto_ponto_articulacao dist ≤ 0.4 := by
  unfold desconto_ponto_articulacao
  constructor
  · positivity
  · have h1 : max 0 (1 - dist / 1000) ≤ 1 := by
      apply max_le (by norm_num)
      have : 0 ≤ dist / 1000 := by positivity
      linarith
    nlinarith [le_max_left 0 (1 - dist / 1000)]

/-- The pole discount lies in `[0, max_desconto]` for nonnegative distances
and nonnegative caps, and `max_desconto ≤ 1/2` for every class. -/
lemma desconto_polo_mem (dist raio cap : ℚ) (hcap : 0 ≤ cap) :
    0 ≤ desconto_polo dist raio cap ∧
      desconto_polo dist raio cap ≤ max 1 (1 - dist / raio) * cap := by
  unfold desconto_polo
  constructor
  · positivity
  · apply mul_le_mul_of_nonneg_right _ hcap
    exact max_le_max (by norm_num) le_rfl

lemma parametros_polo_cap_mem (t : TipoBairro) :
    0 ≤ (parametros_polo t).2 ∧ (parametros_polo t).2 ≤ 0.5 := by
  cases t <;> simp [parametros_polo] <;> norm_num

/-- For nonnegative pole distance the pole discount is at most the cap. -/
lemma desconto_polo_le_cap (dist raio cap : ℚ) (hd : 0 ≤ dist) (hr : 0 < raio)
    (hcap : 0 ≤ cap) : desconto_polo dist raio cap ≤ cap := by
  unfold desconto_polo
  have h1 : max 0 (1 - dist / raio) ≤ 1 := by
    apply max_le (by norm_num)
    have : 0 ≤ dist / raio := by positivity
    linarith
  nlinarith [le_max_left 0 (1 - dist / raio)]

lemma parametros_polo_raio_pos (t : TipoBairro) : 0 < (parametros_polo t).1 := by
  cases t <;> norm_num [parametros_polo]

/-- Core bound: for nonnegative shapely distances and nonnegative raw
length, the final weight is at least the 0.1 floor and at most
`max peso_original 0.1`; when the raw length is at least 0.1 the weight is
bounded by the raw length itself. -/
theorem calcular_peso_atrativo_bounds (d : Point → Point → ℚ)
    (pa pe cb : Point) (peso_original : ℚ) (t : TipoBairro)
    (hda : 0 ≤ d pa pe) (hdp : 0 ≤ d cb pe) (hpeso : 0 ≤ peso_original) :
    0.1 ≤ calcular_peso_atrativo d pa pe cb peso_original t ∧
      calcular_peso_atrativo d pa pe cb peso_original t ≤ max peso_original 0.1 := by
  unfold calcular_peso_atrativo
  set da := desconto_ponto_articulacao (d pa pe) with hdadef
  set dp := desconto_polo (d cb pe) (parametros_polo t).1 (parametros_polo t).2 with hdpdef
  obtain ⟨hda0, hda4⟩ := desconto_ponto_articulacao_mem (d pa pe) hda
  have hdp0 : 0 ≤ dp := by
    rw [hdpdef]; unfold desconto_polo
    have := (parametros_polo_cap_mem t).1
    positivity
  have hdp5 : dp ≤ 0.5 := by
    rw [hdpdef]
    calc desconto_polo (d cb pe) (parametros_polo t).1 (parametros_polo t).2
        ≤ (parametros_polo t).2 :=
          desconto_polo_le_cap _ _ _ hdp (parametros_polo_raio_pos t)
            (parametros_polo_cap_mem t).1
      _ ≤ 0.5 := (parametros_polo_cap_mem t).2
  constructor
  · exact le_max_right _ _
  · apply max_le
    · have hd1 : da + dp - da * dp ≥ 0 := by nlinarith
      have : peso_original * (1 - (da + dp - da * dp)) ≤ peso_original := by nlinarith
      exact le_trans this (le_max_left _ _)
    · exact le_max_right _ _

end PesoBounds

/-- A directed multigraph edge as created by `grafo.add_edge(...)` with the
attribute dict `{"weight", "original_weight", "via_id"}` (network_design.py:108). -/
structure Aresta where
  origem : Node
  destino : Node
  weight : ℚ
  original_weight : ℚ
  via_id : ℤ
  deriving DecidableEq, Repr

/-- Index of the first minimal element of a list, the Python idiom
`lst.index(min(lst))` used in `criacao_arestas` (network_design.py:96,98);
`none` models the `ValueError` that `min` raises on an empty sequence. -/
def idx_do_minimo (l : List ℚ) : Option ℕ :=
  l.min?.map l.indexOf

/-- `segmento.interpolate(0.5, normalized=True)` for a two-point segment:
the midpoint (network_design.py:93). -/
def ponto_medio (p₁ p₂ : Point) : Point :=
  ((p₁.1 + p₂.1) / 2, (p₁.2 + p₂.2) / 2)

/-- The consecutive coordinate pairs of a polyline: the elementary segments
enumerated by `for i in range(len(coordenadas) - 1)` (network_design.py:83-85). -/
def segmentos (linha : List Point) : List (Point × Point) :=
  linha.zip linha.tail

/-- Body of the per-segment loop of `criacao_arestas`
(network_design.py:83-116): skip zero-length segments, find the nearest
articulation point and nearest classified centroid by first-minimal index,
compute the discounted weight at the midpoint, and emit one or two directed
edges according to `direcao`.  `none` models the `ValueError` raised by
`min` when an anchor collection is empty. -/
def criacao_arestas_segmento (d : Point → Point → ℚ)
    (todos_os_pontos_articulacao centroid_bairros : List Point)
    (lista_tipos_bairros : List TipoBairro) (via_id_principal direcao : ℤ)
    (p₁ p₂ : Point) : Option (List Aresta) :=
  let peso_original_segmento := d p₁ p₂
  if peso_original_segmento = 0 then some []
  else
    let pm := ponto_medio p₁ p₂
    match idx_do_minimo (todos_os_pontos_articulacao.map (fun p => d p pm)),
        idx_do_minimo (centroid_bairros.map (fun p => d p pm)) with
    | some ia, some ib =>
      let ponto_articulacao := todos_os_pontos_articulacao.getD ia (0, 0)
      let centroid := centroid_bairros.getD ib (0, 0)
      let tipo := lista_tipos_bairros.getD ib TipoBairro.Nenhum
      let w := calcular_peso_atrativo d ponto_articulacao pm centroid
        peso_original_segmento tipo
      let fwd : Aresta := ⟨p₁, p₂, w, peso_original_segmento, via_id_principal⟩
      let rev : Aresta := ⟨p₂, p₁, w, peso_original_segmento, via_id_principal⟩
      if direcao = 0 then some [fwd, rev]
      else if direcao = 1 then some [fwd]
      else if direcao = -1 then some [rev]
      else some []
    | _, _ => none

/-- The segment loop of `criacao_arestas` over a list of elementary
segments, concatenating the emitted edges in loop order. -/
def criacao_arestas_aux (d : Point → Point → ℚ)
    (artic centroids : List Point) (tipos : List TipoBairro)
    (via_id direcao : ℤ) : List (Point × Point) → Option (List Aresta)
  | [] => some []
  | s :: rest =>
    match criacao_arestas_segmento d artic centroids tipos via_id direcao s.1 s.2,
        criacao_arestas_aux d artic centroids tipos via_id direcao rest with
    | some e, some r => some (e ++ r)
    | _, _ => none

/-- `criacao_arestas` (network_design.py:69-116): explode `linha` into
elementary segments and append the emitted directed edges to `grafo`. -/
def criacao_arestas (d : Point → Point → ℚ) (grafo : List Aresta)
    (linha : List Point) (artic centroids : List Point)
    (tipos : List TipoBairro) (via_id direcao : ℤ) : Option (List Aresta) :=
  (criacao_arestas_aux d artic centroids tipos via_id direcao (segmentos linha)).map
    (fun novas => grafo ++ novas)

/-- Number of edges emitted per positive-length elementary segment for a
given direction code. -/
def multiplicidade (direcao : ℤ) : ℕ :=
  if direcao = 0 then 2 else if direcao = 1 then 1 else if direcao = -1 then 1 else 0

/-- The elementary segments of positive raw length (the ones not skipped by
the `peso_original_segmento == 0` guard). -/
def segmentos_positivos (d : Point → Point → ℚ) (linha : List Point) :
    List (Point × Point) :=
  (segmentos linha).filter fun s => decide (d s.1 s.2 ≠ 0)

/-- Exact L1 distance.  For the concrete end-to-end scenarios all points are
collinear on the x-axis, where the L1 distance coincides with the Euclidean
distance computed by shapely. -/
def distL1 (p q : Point) : ℚ :=
  |p.1 - q.1| + |p.2 - q.2|

lemma idx_do_minimo_isSome (l : List ℚ) (h : l ≠ []) : ∃ i, idx_do_minimo l = some i := by
  cases l with
  | nil => exact absurd rfl h
  | cons x xs => exact ⟨_, rfl⟩

/-- Shape of the edges emitted for one positive-length segment: a single
weight `w`, computed at the midpoint, shared by the one or two edges chosen
by the direction code. -/
lemma criacao_arestas_segmento_spec (d : Point → Point → ℚ)
    (artic centroids : List Point) (tipos : List TipoBairro)
    (via_id direcao : ℤ) (p₁ p₂ : Point)
    (hart : artic ≠ []) (hcen : centroids ≠ []) (hpos : d p₁ p₂ ≠ 0) :
    ∃ w, criacao_arestas_segmento d artic centroids tipos via_id direcao p₁ p₂ =
      some (if direcao = 0 then
          [⟨p₁, p₂, w, d p₁ p₂, via_id⟩, ⟨p₂, p₁, w, d p₁ p₂, via_id⟩]
        else if direcao = 1 then [⟨p₁, p₂, w, d p₁ p₂, via_id⟩]
        else if direcao = -1 then [⟨p₂, p₁, w, d p₁ p₂, via_id⟩]
        else []) := by
  obtain ⟨ia, hia⟩ := idx_do_minimo_isSome (artic.map fun p => d p (ponto_medio p₁ p₂))
    (by simp [hart])
  obtain ⟨ib, hib⟩ := idx_do_minimo_isSome (centroids.map fun p => d p (ponto_medio p₁ p₂))
    (by simp [hcen])
  refine ⟨calcular_peso_atrativo d (artic.getD ia (0, 0)) (ponto_medio p₁ p₂)
    (centroids.getD ib (0, 0)) (d p₁ p₂) (tipos.getD ib TipoBairro.Nenhum), ?_⟩
  simp only [criacao_arestas_segmento, if_neg hpos, hia, hib]
  split_ifs <;> rfl

/-- A zero-length segment is skipped: no edge is emitted. -/
lemma criacao_arestas_segmento_zero (d : Point → Point → ℚ)
    (artic centroids : List Point) (tipos : List TipoBairro)
    (via_id direcao : ℤ) (p₁ p₂ : Point) (hz : d p₁ p₂ = 0) :
    criacao_arestas_segmento d artic centroids tipos via_id direcao p₁ p₂ = some [] := by
  simp [criacao_arestas_segmento, hz]

/-- Every edge emitted for a segment carries that segment's raw length as
`original_weight` and a weight computed by `calcular_peso_atrativo` at the
segment midpoint. -/
lemma criacao_arestas_segmento_mem (d : Point → Point → ℚ)
    (artic centroids : List Point) (tipos : List TipoBairro)
    (via_id direcao : ℤ) (p₁ p₂ : Point) (e : List Aresta)
    (he : criacao_arestas_segmento d artic centroids tipos via_id direcao p₁ p₂ = some e) :
    ∀ a ∈ e, ∃ pa cb tipo, a.original_weight = d p₁ p₂ ∧
      a.weight = calcular_peso_atrativo d pa (ponto_medio p₁ p₂) cb (d p₁ p₂) tipo := by
  by_cases hz : d p₁ p₂ = 0
  · rw [criacao_arestas_segmento_zero d artic centroids tipos via_id direcao p₁ p₂ hz] at he
    cases he
    intro a ha
    exact absurd ha (List.not_mem_nil a)
  · simp only [criacao_arestas_segmento, if_neg hz] at he
    rcases ha' : idx_do_minimo (List.map (fun p => d p (ponto_medio p₁ p₂)) artic) with _ | ia
    · rw [ha'] at he
      cases he
    · rcases hb' : idx_do_minimo (List.map (fun p => d p (ponto_medio p₁ p₂)) centroids) with _ | ib
      · rw [ha', hb'] at he
        cases he
      · rw [ha', hb'] at he
        split_ifs at he <;> cases he <;> intro a ha <;>
          simp only [List.mem_cons, List.not_mem_nil, or_false] at ha
        · rcases ha with rfl | rfl
          · exact ⟨_, _, _, rfl, rfl⟩
          · exact ⟨_, _, _, rfl, rfl⟩
        · rcases ha with rfl
          exact ⟨_, _, _, rfl, rfl⟩
        · rcases ha with rfl
          exact ⟨_, _, _, rfl, rfl⟩

/-- Loop-level specification of edge emission: with nonempty anchor sets the
loop succeeds, the number of emitted edges is the direction multiplicity
times the number of positive-length segments, and each positive segment
contributes its directed edge(s), both directions sharing one weight. -/
lemma criacao_arestas_aux_spec (d : Point → Point → ℚ)
    (artic centroids : List Point) (tipos : List TipoBairro)
    (via_id direcao : ℤ) (hart : artic ≠ []) (hcen : centroids ≠ []) :
    ∀ ss : List (Point × Point), ∃ L,
      criacao_arestas_aux d artic centroids tipos via_id direcao ss = some L ∧
      L.length = multiplicidade direcao *
        (ss.filter fun s => decide (d s.1 s.2 ≠ 0)).length ∧
      ∀ s ∈ ss, d s.1 s.2 ≠ 0 → ∃ w,
        (direcao = 0 → (⟨s.1, s.2, w, d s.1 s.2, via_id⟩ : Aresta) ∈ L ∧
          (⟨s.2, s.1, w, d s.1 s.2, via_id⟩ : Aresta) ∈ L) ∧
        (direcao = 1 → (⟨s.1, s.2, w, d s.1 s.2, via_id⟩ : Aresta) ∈ L) ∧
        (direcao = -1 → (⟨s.2, s.1, w, d s.1 s.2, via_id⟩ : Aresta) ∈ L) := by
  intro ss
  induction ss with
  | nil => exact ⟨[], rfl, by simp, by simp⟩
  | cons s rest ih =>
    obtain ⟨L', hL', hlen, hmem⟩ := ih
    by_cases hz : d s.1 s.2 = 0
    · refine ⟨L', ?_, ?_, ?_⟩
      · rw [criacao_arestas_aux, criacao_arestas_segmento_zero d artic centroids
          tipos via_id direcao s.1 s.2 hz, hL']
        rfl
      · rw [hlen, List.filter_cons_of_neg (by simp [hz])]
      · intro s' hs' hpos
        rcases List.mem_cons.mp hs' with rfl | hs'
        · exact absurd hz hpos
        · exact hmem s' hs' hpos
    · obtain ⟨w, hw⟩ := criacao_arestas_segmento_spec d artic centroids tipos
        via_id direcao s.1 s.2 hart hcen hz
      refine ⟨(if direcao = 0 then
          [⟨s.1, s.2, w, d s.1 s.2, via_id⟩, ⟨s.2, s.1, w, d s.1 s.2, via_id⟩]
        else if direcao = 1 then [(⟨s.1, s.2, w, d s.1 s.2, via_id⟩ : Aresta)]
        else if direcao = -1 then [⟨s.2, s.1, w, d s.1 s.2, via_id⟩]
        else []) ++ L', ?_, ?_, ?_⟩
      · rw [criacao_arestas_aux, hw, hL']
      · rw [List.length_append, hlen, List.filter_cons_of_pos (by simp [hz]),
          List.length_cons, Nat.mul_succ]
        unfold multiplicidade
        split_ifs <;> simp [Nat.add_comm]
      · intro s' hs' hpos
        rcases List.mem_cons.mp hs' with rfl | hs'
        · refine ⟨w, ?_, ?_, ?_⟩
          · intro h0
            rw [if_pos h0]
            exact ⟨List.mem_append_left _ (by simp), List.mem_append_left _ (by simp)⟩
          · intro h1
            have : ¬ direcao = 0 := by omega
            rw [if_neg this, if_pos h1]
            exact List.mem_append_left _ (by simp)
          · intro hm1
            have h0 : ¬ direcao = 0 := by omega
            have h1 : ¬ direcao = 1 := by omega
            rw [if_neg h0, if_neg h1, if_pos hm1]
            exact List.mem_append_left _ (by simp)
        · obtain ⟨w', hw'⟩ := hmem s' hs' hpos
          exact ⟨w', fun h0 => ⟨List.mem_append_right _ (hw'.1 h0).1,
              List.mem_append_right _ (hw'.1 h0).2⟩,
            fun h1 => List.mem_append_right _ (hw'.2.1 h1),
            fun hm1 => List.mem_append_right _ (hw'.2.2 hm1)⟩

/-- C2: For every road feature, graph construction emits per elementary
segment of positive length: both directed edges with equal discounted
weight when `direcao = 0` (bidirectional), exactly one edge in digitized
order when `direcao = 1` (forward), and exactly one edge in reversed order
when `direcao = -1` (reverse).  Globally the edge list has exactly
`multiplicidade direcao` edges per positive segment, and per segment one
shared weight `w` serves the emitted direction(s). -/
theorem criacao_arestas_emite_por_direcao (d : Point → Point → ℚ)
    (linha : List Point) (artic centroids : List Point)
    (tipos : List TipoBairro) (via_id direcao : ℤ)
    (hart : artic ≠ []) (hcen : centroids ≠ []) (L : List Aresta)
    (hL : criacao_arestas d [] linha artic centroids tipos via_id direcao = some L) :
    L.length = multiplicidade direcao * (segmentos_positivos d linha).length ∧
    ∀ s ∈ segmentos linha, d s.1 s.2 ≠ 0 → ∃ w,
      (direcao = 0 → (⟨s.1, s.2, w, d s.1 s.2, via_id⟩ : Aresta) ∈ L ∧
        (⟨s.2, s.1, w, d s.1 s.2, via_id⟩ : Aresta) ∈ L) ∧
      (direcao = 1 → (⟨s.1, s.2, w, d s.1 s.2, via_id⟩ : Aresta) ∈ L) ∧
      (direcao = -1 → (⟨s.2, s.1, w, d s.1 s.2, via_id⟩ : Aresta) ∈ L) := by
  obtain ⟨L', hL', hlen, hmem⟩ := criacao_arestas_aux_spec d artic centroids tipos
    via_id direcao hart hcen (segmentos linha)
  rw [criacao_arestas, hL'] at hL
  simp only [Option.map_some', List.nil_append, Option.some.injEq] at hL
  subst hL
  exact ⟨hlen, hmem⟩

/-- Witness for C2 at a concrete bidirectional 100 m segment: the two
emitted edges match the multiplicity formula. -/
theorem criacao_arestas_emite_por_direcao_witness :
    ([(⟨(0, 0), (100, 0), 60, 100, 7⟩ : Aresta), ⟨(100, 0), (0, 0), 60, 100, 7⟩]).length =
      multiplicidade 0 * (segmentos_positivos distL1 [(0, 0), (100, 0)]).length :=
  (criacao_arestas_emite_por_direcao distL1 [(0, 0), (100, 0)] [(50, 0)] [(5000, 0)]
    [TipoBairro.Emergente] 7 0 (by simp) (by simp) _
    (by norm_num [criacao_arestas, criacao_arestas_aux, criacao_arestas_segmento,
      segmentos, idx_do_minimo, ponto_medio, distL1, calcular_peso_atrativo,
      desconto_ponto_articulacao, desconto_polo, parametros_polo, List.min?,
      List.indexOf, List.findIdx, List.findIdx.go, cond_eq_if, beq_iff_eq])).1

/-- C9: end-to-end scenario — one bidirectional 100 m segment from (0,0) to
(100,0), an articulation point at the segment midpoint (50,0) (distance 0,
articulation discount `max(0, 1 - 0/1000) * 0.4 = 0.4`), the only
classified-neighborhood centroid far beyond its influence radius (no pole
discount): both emitted edges have weight exactly 60.  All points lie on
the x-axis, where `distL1` coincides with the Euclidean distance. -/
theorem cenario_articulacao_no_ponto_medio :
    desconto_ponto_articulacao (distL1 (50, 0) (ponto_medio (0, 0) (100, 0))) = 0.4 ∧
    criacao_arestas distL1 [] [(0, 0), (100, 0)] [(50, 0)] [(5000, 0)]
        [TipoBairro.Emergente] 7 0 =
      some [⟨(0, 0), (100, 0), 60, 100, 7⟩, ⟨(100, 0), (0, 0), 60, 100, 7⟩] := by
  constructor
  · norm_num [desconto_ponto_articulacao, distL1, ponto_medio]
  · norm_num [criacao_arestas, criacao_arestas_aux, criacao_arestas_segmento,
      segmentos, idx_do_minimo, ponto_medio, distL1, calcular_peso_atrativo,
      desconto_ponto_articulacao, desconto_polo, parametros_polo, List.min?,
      List.indexOf, List.findIdx, List.findIdx.go, cond_eq_if, beq_iff_eq]

/-- C1 (amended): every edge the builder emits has weight at least the 0.1
floor and at most `max raw 0.1`; the spec's upper bound by the raw length
itself holds exactly when the raw length is at least 0.1. -/
theorem criacao_arestas_peso_limites (d : Point → Point → ℚ)
    (hd : ∀ p q, 0 ≤ d p q) (linha artic centroids : List Point)
    (tipos : List TipoBairro) (via_id direcao : ℤ) (L : List Aresta)
    (hL : criacao_arestas d [] linha artic centroids tipos via_id direcao = some L) :
    ∀ a ∈ L, 0.1 ≤ a.weight ∧ a.weight ≤ max a.original_weight 0.1 ∧
      (0.1 ≤ a.original_weight → a.weight ≤ a.original_weight) := by
  have haux : ∀ ss L', criacao_arestas_aux d artic centroids tipos via_id direcao ss =
      some L' → ∀ a ∈ L', ∃ p₁ p₂ pa cb tipo, a.original_weight = d p₁ p₂ ∧
      a.weight = calcular_peso_atrativo d pa (ponto_medio p₁ p₂) cb (d p₁ p₂) tipo := by
    intro ss
    induction ss with
    | nil =>
      intro L' hL' a ha
      cases hL'
      exact absurd ha (List.not_mem_nil a)
    | cons s rest ih =>
      intro L' hL'
      rw [criacao_arestas_aux] at hL'
      rcases hseg : criacao_arestas_segmento d artic centroids tipos via_id direcao
          s.1 s.2 with _ | e
      · rw [hseg] at hL'
        cases hL'
      · rcases hrest : criacao_arestas_aux d artic centroids tipos via_id direcao
            rest with _ | r
        · rw [hseg, hrest] at hL'
          cases hL'
        · rw [hseg, hrest] at hL'
          cases hL'
          intro a ha
          rcases List.mem_append.mp ha with hae | har
          · obtain ⟨pa, cb, tipo, h1, h2⟩ :=
              criacao_arestas_segmento_mem d artic centroids tipos via_id direcao
                s.1 s.2 e hseg a hae
            exact ⟨s.1, s.2, pa, cb, tipo, h1, h2⟩
          · exact ih r hrest a har
  intro a ha
  rw [criacao_arestas] at hL
  rcases hauxeq : criacao_arestas_aux d artic centroids tipos via_id direcao
      (segmentos linha) with _ | L'
  · rw [hauxeq] at hL
    cases hL
  · rw [hauxeq] at hL
    simp only [Option.map_some', List.nil_append, Option.some.injEq] at hL
    subst hL
    obtain ⟨p₁, p₂, pa, cb, tipo, h1, h2⟩ := haux (segmentos linha) L' hauxeq a ha
    have hb := calcular_peso_atrativo_bounds d pa (ponto_medio p₁ p₂) cb (d p₁ p₂)
      tipo (hd _ _) (hd _ _) (hd _ _)
    rw [h1, h2]
    refine ⟨hb.1, hb.2, fun hge => ?_⟩
    have := hb.2
    rwa [max_eq_left (le_trans (by norm_num) hge)] at this

/-- Witness for the amended C1 at the concrete 100 m scenario edge. -/
theorem criacao_arestas_peso_limites_witness : (0.1 : ℚ) ≤ 60 ∧ (60 : ℚ) ≤ 100 := by
  have h := criacao_arestas_peso_limites distL1
    (fun p q => add_nonneg (abs_nonneg _) (abs_nonneg _))
    [(0, 0), (100, 0)] [(50, 0)] [(5000, 0)] [TipoBairro.Emergente] 7 0
    [⟨(0, 0), (100, 0), 60, 100, 7⟩, ⟨(100, 0), (0, 0), 60, 100, 7⟩]
    (by norm_num [criacao_arestas, criacao_arestas_aux, criacao_arestas_segmento,
      segmentos, idx_do_minimo, ponto_medio, distL1, calcular_peso_atrativo,
      desconto_ponto_articulacao, desconto_polo, parametros_polo, List.min?,
      List.indexOf, List.findIdx, List.findIdx.go, cond_eq_if, beq_iff_eq])
    (⟨(0, 0), (100, 0), 60, 100, 7⟩ : Aresta) (by simp)
  exact ⟨h.1, h.2.2 (by norm_num)⟩

/-- Counterexample to C1 as stated: a segment of positive raw length 0.05
(< 0.1) becomes an edge whose discounted weight is the floor 0.1, which
exceeds the raw weight — so `discounted_weight ≤ raw_weight` fails. -/
theorem segmento_curto_peso_excede_original :
    criacao_arestas distL1 [] [(0, 0), (1/20, 0)] [(3000, 0)] [(5000, 0)]
        [TipoBairro.Emergente] 1 1 =
      some [⟨(0, 0), (1/20, 0), 1/10, 1/20, 1⟩] ∧ ¬ ((1 : ℚ)/10 ≤ 1/20) := by
  constructor
  · norm_num [criacao_arestas, criacao_arestas_aux, criacao_arestas_segmento,
      segmentos, idx_do_minimo, ponto_medio, distL1, calcular_peso_atrativo,
      desconto_ponto_articulacao, desconto_polo, parametros_polo, List.min?,
      List.indexOf, List.findIdx, List.findIdx.go, cond_eq_if, beq_iff_eq,
      abs_of_nonneg]
  · norm_num

/-- A route geometry (shapely `LineString`): its ordered coordinate list. -/
abbrev LineString := List Point

/-- `filtrar_sublinhas` (network_design.py:169-192).  Rows are
`(pandas index, geometry)` pairs.  `withinBuffer x y` is the external
geometry-engine predicate "`x` lies within the 0.01 buffer of `y`"
(`gdf.geometry.buffer(1e-2)` + sjoin with predicate `within`); a row is
dropped exactly when it lies within the buffer of a row with a different
index (`gdf_sjoined.index != index_right`). -/
def filtrar_sublinhas (withinBuffer : LineString → LineString → Bool)
    (gdf : List (ℕ × LineString)) : List (ℕ × LineString) :=
  gdf.filter fun r => !(gdf.any fun o => decide (o.1 ≠ r.1) && withinBuffer r.2 o.2)

/-- C7: SublineFilter is idempotent — filtering a second time removes
nothing, because every survivor was already compared against a superset of
the surviving rows — and the output count never exceeds the input count. -/
theorem filtrar_sublinhas_idempotente (withinBuffer : LineString → LineString → Bool)
    (gdf : List (ℕ × LineString)) :
    filtrar_sublinhas withinBuffer (filtrar_sublinhas withinBuffer gdf) =
      filtrar_sublinhas withinBuffer gdf ∧
    (filtrar_sublinhas withinBuffer gdf).length ≤ gdf.length := by
  constructor
  · apply List.filter_eq_self.mpr
    intro r hr
    have hsub : filtrar_sublinhas withinBuffer gdf ⊆ gdf :=
      fun x hx => (List.mem_filter.mp hx).1
    have hkeep := (List.mem_filter.mp hr).2
    simp only [Bool.not_eq_true', List.any_eq_false] at hkeep ⊢
    intro o ho
    exact hkeep o (hsub ho)
  · exact List.length_filter_le _ _

/-- A road feature (row of `gdf_vias`): polyline geometries (one for a
`LineString`, several for a `MultiLineString`), the geometry-engine
validity verdict for `all(g.is_valid and not g.is_empty ...)`, and the
`DIR` and `ID` attributes, `none` modelling a non-`int` value. -/
structure Via where
  geometry : List LineString
  geometria_valida : Bool
  dir : Option ℤ
  id : Option ℤ

/-- Inner loop of `criar_grafo_ponderado` over the geometries of one road
feature (network_design.py:154-155), accumulating edges into the graph;
`none` propagates the `ValueError` raised inside `criacao_arestas`. -/
def criar_grafo_linhas (d : Point → Point → ℚ) (artic centroids : List Point)
    (tipos : List TipoBairro) (via_id direcao : ℤ) :
    List LineString → List Aresta → Option (List Aresta)
  | [], grafo => some grafo
  | linha :: resto, grafo =>
    match criacao_arestas d grafo linha artic centroids tipos via_id direcao with
    | some grafo' => criar_grafo_linhas d artic centroids tipos via_id direcao resto grafo'
    | none => none

/-- The `for via in gdf_vias.itertuples()` loop of `criar_grafo_ponderado`
(network_design.py:138-155): skip features with empty/invalid geometry,
reject non-integer `DIR`/`ID` with a `ValueError`, and otherwise emit the
edges of every polyline. -/
def criar_grafo_vias (d : Point → Point → ℚ) (artic centroids : List Point)
    (tipos : List TipoBairro) : List Via → List Aresta → Except String (List Aresta)
  | [], grafo => .ok grafo
  | via :: resto, grafo =>
    if via.geometry = [] ∨ via.geometria_valida = false then
      criar_grafo_vias d artic centroids tipos resto grafo
    else
      match via.dir, via.id with
      | some direcao, some via_id =>
        match criar_grafo_linhas d artic centroids tipos via_id direcao via.geometry grafo with
        | some grafo' => criar_grafo_vias d artic centroids tipos resto grafo'
        | none => .error "min() arg is an empty sequence"
      | _, _ => .error "Erro na direção ou no id da via"

/-- `criar_grafo_ponderado` (network_design.py:119-158): reject an empty
articulation-point layer up front, keep only `Emergente`/`Consolidado`
neighborhoods as pole anchors, then build all edges.  A neighborhood row is
its centroid (geometry-engine `centroid` output) paired with `tipo_polo`. -/
def criar_grafo_ponderado (d : Point → Point → ℚ) (gdf_vias : List Via)
    (gdf_pontos_articulacao : List Point)
    (gdf_bairros : List (Point × TipoBairro)) : Except String (List Aresta) :=
  if gdf_pontos_articulacao = [] then
    .error "O GeoDataFrame de pontos de articulação está vazio."
  else
    let bairros_relevantes := gdf_bairros.filter fun b =>
      decide (b.2 = TipoBairro.Emergente ∨ b.2 = TipoBairro.Consolidado)
    criar_grafo_vias d gdf_pontos_articulacao
      (bairros_relevantes.map fun b => b.1)
      (bairros_relevantes.map fun b => b.2) gdf_vias []

/-- C10: for every line layer and neighborhood layer, building the graph
with zero articulation points fails with the "empty articulation points"
`ValueError` before any edge is created (the check precedes the feature
loop). -/
theorem criar_grafo_ponderado_rejeita_artic_vazio (d : Point → Point → ℚ)
    (gdf_vias : List Via) (gdf_bairros : List (Point × TipoBairro)) :
    criar_grafo_ponderado d gdf_vias [] gdf_bairros =
      .error "O GeoDataFrame de pontos de articulação está vazio." := rfl

/-- Successor nodes of `u` in the edge-list multigraph. -/
def sucessores (grafo : List Aresta) (u : Node) : List Node :=
  (grafo.filter fun e => decide (e.origem = u)).map fun e => e.destino

/-- The one-step directed edge relation of the graph. -/
def TemAresta (grafo : List Aresta) (u v : Node) : Prop :=
  ∃ e ∈ grafo, e.origem = u ∧ e.destino = v

/-- Path existence in the directed graph: reflexive-transitive closure of
the edge relation.  This is the reference notion of "a path exists" for
the routing claims, independent of the search procedure. -/
def Alcancavel (grafo : List Aresta) : Node → Node → Prop :=
  Relation.ReflTransGen (TemAresta grafo)

/-- Depth-first search for a path from `u` to `t`, avoiding the nodes on
the current search stack `vis`.  Executable model of the path returned by
`nx.dijkstra_path`: sound and complete for path existence (which concrete
path is returned is irrelevant to every claim; weight-optimality of the
networkx result is deliberately not modelled). -/
def dfsPath (grafo : List Aresta) (t : Node) : ℕ → List Node → Node → Option (List Node)
  | 0, _, _ => none
  | fuel + 1, vis, u =>
    if u = t then some [t]
    else ((sucessores grafo u).filter fun v => decide (v ∉ vis)).findSome?
      fun v => (dfsPath grafo t fuel (u :: vis) v).map fun p => u :: p

lemma TemAresta_mem_sucessores {grafo : List Aresta} {u v : Node}
    (h : TemAresta grafo u v) : v ∈ sucessores grafo u := by
  obtain ⟨e, he, horig, hdest⟩ := h
  subst hdest
  exact List.mem_map_of_mem _ (List.mem_filter.mpr ⟨he, by simp [horig]⟩)

lemma TemAresta_of_mem_sucessores {grafo : List Aresta} {u v : Node}
    (h : v ∈ sucessores grafo u) : TemAresta grafo u v := by
  obtain ⟨e, he, hdest⟩ := List.mem_map.mp h
  exact ⟨e, (List.mem_filter.mp he).1, by
    have := (List.mem_filter.mp he).2
    simpa using this, hdest⟩

/-- Soundness of the search: a returned list is nonempty, starts at `u`,
ends at `t`, and witnesses reachability. -/
lemma dfsPath_sound {grafo : List Aresta} {t : Node} :
    ∀ (fuel : ℕ) (vis : List Node) (u : Node) (p : List Node),
      dfsPath grafo t fuel vis u = some p →
      p.head? = some u ∧ p.getLast? = some t ∧ Alcancavel grafo u t := by
  intro fuel
  induction fuel with
  | zero => intro vis u p h; cases h
  | succ fuel ih =>
    intro vis u p h
    rw [dfsPath] at h
    by_cases hut : u = t
    · rw [if_pos hut] at h
      cases h
      subst hut
      exact ⟨rfl, rfl, Relation.ReflTransGen.refl⟩
    · rw [if_neg hut] at h
      obtain ⟨l₁, v, l₂, hsplit, hv, hnone⟩ := List.findSome?_eq_some_iff.mp h
      have hvmem : v ∈ (sucessores grafo u).filter fun v => decide (v ∉ vis) := by
        rw [hsplit]; exact List.mem_append_right _ (List.mem_cons_self v l₂)
      have hedge : TemAresta grafo u v :=
        TemAresta_of_mem_sucessores (List.mem_filter.mp hvmem).1
      rcases hrec : dfsPath grafo t fuel (u :: vis) v with _ | p'
      · rw [hrec] at hv; cases hv
      · rw [hrec] at hv
        simp only [Option.map_some', Option.some.injEq] at hv
        subst hv
        obtain ⟨hhead, hlast, hreach⟩ := ih (u :: vis) v p' hrec
        have hp' : p' ≠ [] := by
          intro hnil; rw [hnil] at hhead; cases hhead
        refine ⟨rfl, ?_, Relation.ReflTransGen.head hedge hreach⟩
        rw [List.getLast?_cons, hlast]
        cases p' with
        | nil => exact absurd rfl hp'
        | cons a as => simp [List.getLast?_cons]

/-- Completeness of the search: a duplicate-free chain from `u` to `t`
whose tail avoids the stack, of length below the fuel, guarantees success. -/
lemma dfsPath_complete {grafo : List Aresta} {t : Node} :
    ∀ (l : List Node) (u : Node) (vis : List Node) (fuel : ℕ),
      List.Chain (TemAresta grafo) u l →
      (u :: l).getLast? = some t → (u :: l).Nodup →
      (∀ x ∈ l, x ∉ vis) → l.length < fuel →
      (dfsPath grafo t fuel vis u).isSome := by
  intro l
  induction l with
  | nil =>
    intro u vis fuel _ hlast _ _ hfuel
    obtain ⟨fuel, rfl⟩ := Nat.exists_eq_succ_of_ne_zero (Nat.pos_iff_ne_zero.mp hfuel)
    simp only [List.getLast?_singleton, Option.some.injEq] at hlast
    rw [dfsPath, if_pos hlast]
    rfl
  | cons v l' ih =>
    intro u vis fuel hchain hlast hnodup havoid hfuel
    obtain ⟨fuel, rfl⟩ := Nat.exists_eq_succ_of_ne_zero
      (Nat.pos_iff_ne_zero.mp (Nat.lt_of_le_of_lt (Nat.zero_le _) hfuel))
    rw [dfsPath]
    by_cases hut : u = t
    · rw [if_pos hut]; rfl
    · rw [if_neg hut]
      rw [List.chain_cons] at hchain
      have hvfilter : v ∈ (sucessores grafo u).filter fun x => decide (x ∉ vis) :=
        List.mem_filter.mpr ⟨TemAresta_mem_sucessores hchain.1,
          by simp [havoid v (List.mem_cons_self v l')]⟩
      have hrec : (dfsPath grafo t fuel (u :: vis) v).isSome := by
        apply ih v (u :: vis) fuel hchain.2
        · rw [List.getLast?_cons_cons] at hlast
          exact hlast
        · exact (List.nodup_cons.mp hnodup).2
        · intro x hx
          rw [List.mem_cons]
          push_neg
          constructor
          · intro hxu
            subst hxu
            exact (List.nodup_cons.mp hnodup).1 (List.mem_cons_of_mem v hx)
          · exact havoid x (List.mem_cons_of_mem v hx)
        · exact Nat.lt_of_succ_lt_succ hfuel
      rcases hrecv : dfsPath grafo t fuel (u :: vis) v with _ | p'
      · rw [hrecv] at hrec; cases hrec
      · rcases hall : ((sucessores grafo u).filter fun x => decide (x ∉ vis)).findSome?
            (fun v => (dfsPath grafo t fuel (u :: vis) v).map fun p => u :: p) with _ | q
        · have := List.findSome?_eq_none_iff.mp hall v hvfilter
          rw [hrecv] at this
          cases this
        · rfl

/-- Cycle erasure: any chain from `a` ending at `b` contains a
duplicate-free chain from `a` to `b` over the same elements. -/
lemma chain_dedup {α : Type} [DecidableEq α] {r : α → α → Prop} {b : α} :
    ∀ (n : ℕ) (l : List α), l.length ≤ n → ∀ a, List.Chain r a l →
      (a :: l).getLast? = some b →
      ∃ l', List.Chain r a l' ∧ (a :: l').getLast? = some b ∧
        (a :: l').Nodup ∧ ∀ x ∈ l', x ∈ l := by
  intro n
  induction n with
  | zero =>
    intro l hlen a hchain hlast
    rw [List.length_eq_zero.mp (Nat.le_zero.mp hlen)] at hchain hlast ⊢
    exact ⟨[], List.Chain.nil, hlast, List.nodup_singleton a, by simp⟩
  | succ n ih =>
    intro l hlen a hchain hlast
    by_cases hal : a ∈ l
    · obtain ⟨s, t', rfl⟩ := List.append_of_mem hal
      have hchain' : List.Chain r a t' := (List.chain_split.mp hchain).2
      have hlast' : (a :: t').getLast? = some b := by
        have : a :: (s ++ a :: t') = (a :: s) ++ a :: t' := by simp
        rw [this, List.getLast?_append_cons] at hlast
        exact hlast
      have hlen' : t'.length ≤ n := by
        rw [List.length_append, List.length_cons] at hlen
        omega
      obtain ⟨l', h1, h2, h3, h4⟩ := ih t' hlen' a hchain' hlast'
      exact ⟨l', h1, h2, h3, fun x hx => by
        have := h4 x hx
        exact List.mem_append_right s (List.mem_cons_of_mem a this)⟩
    · cases l with
      | nil => exact ⟨[], List.Chain.nil, hlast, List.nodup_singleton a, by simp⟩
      | cons v l' =>
        rw [List.chain_cons] at hchain
        rw [List.getLast?_cons_cons] at hlast
        have hlen' : l'.length ≤ n := by
          rw [List.length_cons] at hlen
          omega
        obtain ⟨l'', h1, h2, h3, h4⟩ := ih l' hlen' v hchain.2 hlast
        refine ⟨v :: l'', List.chain_cons.mpr ⟨hchain.1, h1⟩, ?_, ?_, ?_⟩
        · rw [List.getLast?_cons_cons]
          exact h2
        · rw [List.nodup_cons]
          refine ⟨?_, h3⟩
          intro hmem
          rcases List.mem_cons.mp hmem with rfl | hmem'
          · exact hal (List.mem_cons_self a l')
          · exact hal (List.mem_cons_of_mem v (h4 a hmem'))
        · intro x hx
          rcases List.mem_cons.mp hx with rfl | hx'
          · exact List.mem_cons_self x l'
          · exact List.mem_cons_of_mem v (h4 x hx')

/-- Every node in a chain of graph edges is the target of some edge, so a
duplicate-free chain is no longer than the edge list. -/
lemma chain_length_le {grafo : List Aresta} :
    ∀ (l : List Node) (a : Node), List.Chain (TemAresta grafo) a l → l.Nodup →
      l.length ≤ grafo.length := by
  intro l a hchain hnodup
  have hsub : ∀ x ∈ l, x ∈ grafo.map fun e => e.destino := by
    intro x hx
    have : ∀ (a' : Node) (l' : List Node), List.Chain (TemAresta grafo) a' l' →
        x ∈ l' → x ∈ grafo.map fun e => e.destino := by
      intro a' l'
      induction l' generalizing a' with
      | nil => intro _ hmem; cases hmem
      | cons y ys ihy =>
        intro hch hmem
        rw [List.chain_cons] at hch
        rcases List.mem_cons.mp hmem with rfl | hmem'
        · obtain ⟨e, he, _, hdest⟩ := hch.1
          exact hdest ▸ List.mem_map_of_mem _ he
        · exact ihy y hch.2 hmem'
    exact this a l hchain hx
  calc l.length = l.toFinset.card := (List.toFinset_card_of_nodup hnodup).symm
    _ ≤ ((grafo.map fun e => e.destino).toFinset).card := by
        apply Finset.card_le_card
        intro x hx
        rw [List.mem_toFinset] at hx ⊢
        exact hsub x hx
    _ ≤ (grafo.map fun e => e.destino).length := List.toFinset_card_le _
    _ = grafo.length := List.length_map _ _

/-- Model of `nx.dijkstra_path(grafo, source, target, weight="weight")`
restricted to the facts the repository relies on: `some path` exactly when
`target` is reachable from `source`, the trivial `[source]` when
`source = target`, and a path from `source` to `target` otherwise.  The
`none` result models the `NetworkXNoPath` exception. -/
def dijkstra_path (grafo : List Aresta) (source target : Node) : Option (List Node) :=
  dfsPath grafo target (grafo.length + 1) [] source

/-- The search succeeds exactly on reachable target nodes. -/
lemma dijkstra_path_isSome_iff (grafo : List Aresta) (source target : Node) :
    (dijkstra_path grafo source target).isSome ↔ Alcancavel grafo source target := by
  constructor
  · intro h
    rcases hp : dijkstra_path grafo source target with _ | p
    · rw [hp] at h; cases h
    · exact (dfsPath_sound _ _ _ _ hp).2.2
  · intro h
    obtain ⟨l, hchain, hlast⟩ := List.exists_chain_of_relationReflTransGen h
    have hlast' : (source :: l).getLast? = some target := by
      rw [List.getLast?_eq_getLast _ (List.cons_ne_nil _ _), hlast]
    obtain ⟨l', h1, h2, h3, h4⟩ := chain_dedup l.length l le_rfl source hchain hlast'
    apply dfsPath_complete l' source [] (grafo.length + 1) h1 h2 h3 (by simp)
    have := chain_length_le l' source h1 (List.nodup_cons.mp h3).2
    omega

/-- When source and target coincide the search returns the trivial
one-node path, mirroring `nx.dijkstra_path(G, s, s) = [s]`. -/
lemma dijkstra_path_self (grafo : List Aresta) (s : Node) :
    dijkstra_path grafo s s = some [s] := by
  rw [dijkstra_path, dfsPath, if_pos rfl]

/-- A returned path starts at the source and ends at the target. -/
lemma dijkstra_path_ends (grafo : List Aresta) (source target : Node)
    (p : List Node) (hp : dijkstra_path grafo source target = some p) :
    p.head? = some source ∧ p.getLast? = some target :=
  ⟨(dfsPath_sound _ _ _ _ hp).1, (dfsPath_sound _ _ _ _ hp).2.1⟩

/-- Route direction flag (`sentido` ∈ {"IDA", "VOLTA"}). -/
inductive Sentido where
  | IDA
  | VOLTA
  deriving DecidableEq, Repr

/-- The `(source, target)` selection of `_calcular_rota_individual`
(network_design.py:224): digitized order for IDA, swapped for VOLTA. -/
def extremos (no_origem no_destino : Node) : Sentido → Node × Node
  | .IDA => (no_origem, no_destino)
  | .VOLTA => (no_destino, no_origem)

/-- `_calcular_rota_individual` (network_design.py:218-235): run Dijkstra
between the resolved nodes; return `none` on `NetworkXNoPath` and on a
trivial path of fewer than 2 nodes; otherwise the node sequence of the
route `LineString`. -/
def calcular_rota_individual (grafo : List Aresta) (no_origem no_destino : Node)
    (sentido : Sentido) : Option (List Node) :=
  let st := extremos no_origem no_destino sentido
  match dijkstra_path grafo st.1 st.2 with
  | some caminho => if caminho.length < 2 then none else some caminho
  | none => none

lemma length_ge_two_of_ends {p : List Node} {x y : Node}
    (hx : p.head? = some x) (hy : p.getLast? = some y) (hxy : x ≠ y) :
    2 ≤ p.length := by
  cases p with
  | nil => cases hx
  | cons a as =>
    cases as with
    | nil =>
      cases hx
      cases hy
      exact absurd rfl hxy
    | cons b bs => simp [List.length_cons]

/-- C6: the router's per-pair shortest-path computation returns `none`
exactly when the target is unreachable from the source in the (directed)
graph or the two endpoints resolve to the same node; any returned route has
at least 2 nodes (never a zero-length route).  The embedding is a total
function: the `NetworkXNoPath` exception is the `none` branch, so no
execution path raises. -/
theorem calcular_rota_individual_none_iff (grafo : List Aresta)
    (no_origem no_destino : Node) (sentido : Sentido) :
    (calcular_rota_individual grafo no_origem no_destino sentido = none ↔
      (¬ Alcancavel grafo (extremos no_origem no_destino sentido).1
          (extremos no_origem no_destino sentido).2 ∨
        (extremos no_origem no_destino sentido).1 =
          (extremos no_origem no_destino sentido).2)) ∧
    ∀ p, calcular_rota_individual grafo no_origem no_destino sentido = some p →
      2 ≤ p.length := by
  set src := (extremos no_origem no_destino sentido).1 with hsrc
  set tgt := (extremos no_origem no_destino sentido).2 with htgt
  have hunfold : calcular_rota_individual grafo no_origem no_destino sentido =
      match dijkstra_path grafo src tgt with
      | some caminho => if caminho.length < 2 then none else some caminho
      | none => none := rfl
  rcases hd : dijkstra_path grafo src tgt with _ | p
  · have hnone : calcular_rota_individual grafo no_origem no_destino sentido = none := by
      rw [hunfold, hd]
    have hnr : ¬ Alcancavel grafo src tgt := by
      intro h
      have := (dijkstra_path_isSome_iff grafo src tgt).mpr h
      rw [hd] at this
      cases this
    refine ⟨⟨fun _ => Or.inl hnr, fun _ => hnone⟩, fun p hp => ?_⟩
    rw [hnone] at hp
    cases hp
  · by_cases hst : src = tgt
    · have hself : dijkstra_path grafo src tgt = some [tgt] := hst ▸ dijkstra_path_self grafo tgt
      have hp1 : p = [tgt] := by
        rw [hd] at hself
        exact (Option.some.injEq _ _).mp hself
      have hnone : calcular_rota_individual grafo no_origem no_destino sentido = none := by
        rw [hunfold, hd, hp1]
        rfl
      refine ⟨⟨fun _ => Or.inr hst, fun _ => hnone⟩, fun q hq => ?_⟩
      rw [hnone] at hq
      cases hq
    · have hreach : Alcancavel grafo src tgt := by
        have : (dijkstra_path grafo src tgt).isSome := by rw [hd]; rfl
        exact (dijkstra_path_isSome_iff grafo src tgt).mp this
      obtain ⟨hhead, hlast⟩ := dijkstra_path_ends grafo src tgt p hd
      have hlen : 2 ≤ p.length := length_ge_two_of_ends hhead hlast hst
      have hsome : calcular_rota_individual grafo no_origem no_destino sentido = some p := by
        have hif : (if p.length < 2 then (none : Option (List Node)) else some p) = some p :=
          if_neg (by omega)
        rw [hunfold, hd]
        exact hif
      refine ⟨⟨fun h => ?_, fun h => ?_⟩, fun q hq => ?_⟩
      · rw [hsome] at h
        cases h
      · rcases h with h | h
        · exact absurd hreach h
        · exact absurd h hst
      · rw [hsome] at hq
        cases hq
        exact hlen

/-- Witness for C6 on the one-edge graph (0,0) → (1,0): the route
delivered for the reachable ordered pair has 2 nodes. -/
theorem calcular_rota_individual_none_iff_witness :
    2 ≤ ([((0 : ℚ), (0 : ℚ)), ((1 : ℚ), (0 : ℚ))] : List Node).length :=
  (calcular_rota_individual_none_iff [⟨(0, 0), (1, 0), 1, 1, 0⟩] (0, 0) (1, 0) .IDA).2
    [(0, 0), (1, 0)]
    (by norm_num [calcular_rota_individual, extremos, dijkstra_path, dfsPath,
      sucessores, List.findSome?, Prod.ext_iff])

/-- A GA gene: an ordered `(origin, destination)` pair of neighborhood
indices (ag.py:126-127). -/
abbrev Gene := ℕ × ℕ

/-- The record cached by `_rota_entre_bairros` (ag.py:90-98):
`{"dist", "bairros", "geom"}`; `dist = none` models `float("inf")`. -/
structure DadosRota where
  dist : Option ℚ
  bairros : Finset String
  geom : Option LineString
  deriving DecidableEq

/-- `encontrar_no_mais_proximo` (network_design.py:161-166) applied to the
optimizer's optional node `MultiPoint`: nearest node of the cloud by the
geometry engine's nearest-point query, first minimal index on ties.
`none` models the exception raised when the multipoint is `None` (the
unprepared-empty-graph state) or empty. -/
def encontrar_no_mais_proximo (d : Point → Point → ℚ) (ponto : Point) :
    Option (List Node) → Option Node
  | none => none
  | some nos =>
    if nos = [] then none
    else (idx_do_minimo (nos.map fun p => d p ponto)).map fun i => nos.getD i (0, 0)

/-- The node set of the `nx.MultiDiGraph`: endpoint coordinates of its
edges, deduplicated (nx creates nodes implicitly on `add_edge`). -/
def nosDoGrafo (grafo : List Aresta) : List Node :=
  (grafo.flatMap fun e => [e.origem, e.destino]).dedup

/-- `OtimizadorRotas._preparar_grafo` (ag.py:67-72): build the node
`MultiPoint` only when the graph has at least one node; otherwise the field
keeps its `__init__` value `None`.  No exception is raised on an empty
graph. -/
def preparar_grafo (grafo : List Aresta) : Option (List Node) :=
  if 0 < (nosDoGrafo grafo).length then some (nosDoGrafo grafo) else none

/-- `OtimizadorRotas` state (ag.py:19-34).  The geometry engine enters as
function fields: `d` is shapely `.distance`, `centroides` the neighborhood
centroid lookup (`bairros_dict[idx]["geom"]`), `atendidos` the
sjoin-intersected `NM_BAIRRO` set of a route geometry, `comprimento` the
shapely `.length` of a route geometry. -/
structure Otimizador where
  d : Point → Point → ℚ
  grafo : List Aresta
  centroides : ℕ → Point
  atendidos : LineString → Finset String
  comprimento : LineString → ℚ
  qtd_bairros : ℕ
  nos_grafo_multipoint : Option (List Node)
  cache_rotas : List (Gene × DadosRota)

/-- `OtimizadorRotas.__init__` (ag.py:20-34): store the collaborators,
start with an empty route cache and a `None` node index, then run
`_preparar_grafo` (`_pre_calcular_todas_rotas` is a no-op). -/
def otimizador_init (d : Point → Point → ℚ) (grafo : List Aresta)
    (centroides : ℕ → Point) (atendidos : LineString → Finset String)
    (comprimento : LineString → ℚ) (qtd_bairros : ℕ) : Otimizador :=
  { d := d, grafo := grafo, centroides := centroides, atendidos := atendidos,
    comprimento := comprimento, qtd_bairros := qtd_bairros,
    nos_grafo_multipoint := preparar_grafo grafo, cache_rotas := [] }

/-- The cache-free core of `_rota_entre_bairros` (ag.py:79-98): resolve
both centroids to nearest nodes, run the per-pair router, and package the
`{"dist", "bairros", "geom"}` record; `none` models the exception escaping
from `encontrar_no_mais_proximo`. -/
def rota_pura (s : Otimizador) (idx_origem idx_destino : ℕ) : Option DadosRota :=
  let p1 := s.centroides idx_origem
  let p2 := s.centroides idx_destino
  match encontrar_no_mais_proximo s.d p1 s.nos_grafo_multipoint,
      encontrar_no_mais_proximo s.d p2 s.nos_grafo_multipoint with
  | some no_origem, some no_destino =>
    match calcular_rota_individual s.grafo no_origem no_destino .IDA with
    | none => some ⟨none, ∅, none⟩
    | some caminho =>
      some ⟨some (s.comprimento caminho), s.atendidos caminho, some caminho⟩
  | _, _ => none

/-- `_rota_entre_bairros` (ag.py:74-101): return the cached record for the
ordered key `(idx_origem, idx_destino)` if present, else compute it and
store it under that ordered key. -/
def rota_entre_bairros (s : Otimizador) (idx_origem idx_destino : ℕ) :
    Option (DadosRota × Otimizador) :=
  match s.cache_rotas.lookup (idx_origem, idx_destino) with
  | some dados => some (dados, s)
  | none =>
    match rota_pura s idx_origem idx_destino with
    | some dados =>
      some (dados,
        { s with cache_rotas := ((idx_origem, idx_destino), dados) :: s.cache_rotas })
    | none => none

/-- One random draw consumed by `mutacao_variavel` (ag.py:165-182): the
uniform `r = random.random()` and the `randrange`/new-gene draws of the
three possible actions (indices are taken modulo the current length,
matching `random.randrange(len(individual))`). -/
structure EscolhaMutacao where
  r : ℚ
  idxRemover : ℕ
  novoGene : Gene
  idxAlterar : ℕ

/-- `mutacao_variavel` (ag.py:165-182): with `r < 0.33` and length > 20
delete a random gene; elif `r < 0.66` and length < 40 append a random new
gene; else replace a random gene. -/
def mutacao_variavel (individual : List Gene) (c : EscolhaMutacao) : List Gene :=
  if c.r < 0.33 ∧ 20 < individual.length then
    individual.eraseIdx (c.idxRemover % individual.length)
  else if c.r < 0.66 ∧ individual.length < 40 then
    individual ++ [c.novoGene]
  else
    individual.set (c.idxAlterar % individual.length) c.novoGene

/-- `gerar_individuo` (ag.py:130-132): a portfolio of `tamanho` random
genes, `tamanho = random.randint(20, 40)`. -/
def gerar_individuo (tamanho : ℕ) (genes : ℕ → Gene) : List Gene :=
  (List.range tamanho).map genes

/-- The loop of `evaluate` (ag.py:139-154), threading the running distance
total, the accumulated touched-neighborhood set, and the optimizer state
(whose cache `_rota_entre_bairros` mutates). -/
def evaluate_loop (s : Otimizador) : List Gene → ℚ → Finset String →
    Option ((ℚ × ℚ) × Otimizador)
  | [], total_distancia, bairros_atendidos =>
    some ((total_distancia,
      1 - (bairros_atendidos.card : ℚ) / (s.qtd_bairros : ℚ)), s)
  | (origem, destino) :: resto, total_distancia, bairros_atendidos =>
    match rota_entre_bairros s origem destino with
    | some (dados_rota, s') =>
      match dados_rota.dist with
      | none => evaluate_loop s' resto (total_distancia + 100000) bairros_atendidos
      | some dist => evaluate_loop s' resto (total_distancia + dist)
          (bairros_atendidos ∪ dados_rota.bairros)
    | none => none

/-- `evaluate` (ag.py:139-154): fold the portfolio's genes starting from a
zero total and an empty neighborhood set, returning
`(total_distancia, 1 - |bairros_atendidos| / qtd_bairros)`. -/
def evaluate (s : Otimizador) (individual : List Gene) :
    Option ((ℚ × ℚ) × Otimizador) :=
  evaluate_loop s individual 0 ∅

/-- One mutation keeps the portfolio length inside [20, 40]: deletion only
fires above 20, append only below 40, replacement preserves length. -/
lemma mutacao_variavel_bounds (l : List Gene) (c : EscolhaMutacao)
    (h1 : 20 ≤ l.length) (h2 : l.length ≤ 40) :
    20 ≤ (mutacao_variavel l c).length ∧ (mutacao_variavel l c).length ≤ 40 := by
  unfold mutacao_variavel
  split_ifs with hdel happ
  · have hpos : 0 < l.length := by omega
    have hidx : c.idxRemover % l.length < l.length := Nat.mod_lt _ hpos
    rw [List.length_eraseIdx, if_pos hidx]
    omega
  · rw [List.length_append, List.length_singleton]
    omega
  · rw [List.length_set]
    exact ⟨h1, h2⟩

/-- C3: starting from any initial portfolio of length in [20, 40]
(`random.randint(20, 40)`), every finite sequence of mutation applications
keeps the length within [20, 40]. -/
theorem portfolio_comprimento_invariante (tamanho : ℕ) (genes : ℕ → Gene)
    (h1 : 20 ≤ tamanho) (h2 : tamanho ≤ 40) (escolhas : List EscolhaMutacao) :
    20 ≤ (escolhas.foldl mutacao_variavel (gerar_individuo tamanho genes)).length ∧
      (escolhas.foldl mutacao_variavel (gerar_individuo tamanho genes)).length ≤ 40 := by
  have hstart : (gerar_individuo tamanho genes).length = tamanho := by
    simp [gerar_individuo]
  have hstep : ∀ (cs : List EscolhaMutacao) (l : List Gene),
      20 ≤ l.length → l.length ≤ 40 →
      20 ≤ (cs.foldl mutacao_variavel l).length ∧
        (cs.foldl mutacao_variavel l).length ≤ 40 := by
    intro cs
    induction cs with
    | nil => intro l ha hb; exact ⟨ha, hb⟩
    | cons c cs ih =>
      intro l ha hb
      obtain ⟨g1, g2⟩ := mutacao_variavel_bounds l c ha hb
      exact ih _ g1 g2
  exact hstep escolhas _ (by rw [hstart]; exact h1) (by rw [hstart]; exact h2)

/-- Witness for C3: a size-25 portfolio mutated once stays in bounds. -/
theorem portfolio_comprimento_invariante_witness :
    20 ≤ (([⟨0.1, 3, (1, 2), 5⟩] : List EscolhaMutacao).foldl mutacao_variavel
        (gerar_individuo 25 fun _ => (0, 1))).length ∧
      (([⟨0.1, 3, (1, 2), 5⟩] : List EscolhaMutacao).foldl mutacao_variavel
        (gerar_individuo 25 fun _ => (0, 1))).length ≤ 40 :=
  portfolio_comprimento_invariante 25 (fun _ => (0, 1)) (by norm_num) (by norm_num)
    [⟨0.1, 3, (1, 2), 5⟩]

/-- C4 (amended): on a zero-node graph the optimizer starts WITHOUT any
error — `__init__` completes, `_preparar_grafo` silently leaves the node
index `None` — and every later route evaluation fails (the exception
escaping `encontrar_no_mais_proximo`), instead of a clear fail-fast
"empty graph" error at start. -/
theorem otimizador_init_grafo_vazio (d : Point → Point → ℚ)
    (centroides : ℕ → Point) (atendidos : LineString → Finset String)
    (comprimento : LineString → ℚ) (qtd a b : ℕ) :
    (otimizador_init d [] centroides atendidos comprimento qtd).nos_grafo_multipoint =
        none ∧
      rota_entre_bairros (otimizador_init d [] centroides atendidos comprimento qtd)
        a b = none :=
  ⟨rfl, rfl⟩

/-- C4 counterexample at a concrete instance: initialization on the empty
graph returns a normal state (no "empty graph" error is raised anywhere in
`__init__`/`_preparar_grafo`), with the node index unset and the first
route computation failing later. -/
theorem otimizador_grafo_vazio_contraexemplo :
    (otimizador_init distL1 [] (fun _ => (0, 0)) (fun _ => ∅) (fun _ => 0)
        3).nos_grafo_multipoint = none ∧
      rota_entre_bairros (otimizador_init distL1 [] (fun _ => (0, 0)) (fun _ => ∅)
        (fun _ => 0) 3) 0 1 = none :=
  ⟨rfl, rfl⟩

/-- A concrete optimizer over the one-directed-edge graph (0,0) → (1,0)
with two neighborhoods whose centroids sit on the two nodes. -/
def otimizadorExemplo : Otimizador :=
  otimizador_init distL1 [⟨(0, 0), (1, 0), 1, 1, 0⟩]
    (fun i => if i = 0 then (0, 0) else (1, 0)) (fun _ => {"A"}) (fun _ => 1) 2

/-- The record computed for the pair (0, 1) on `otimizadorExemplo`. -/
def dadosExemplo : DadosRota := ⟨some 1, {"A"}, some [(0, 0), (1, 0)]⟩

/-- C5 counterexample: on a directed graph the two orders of the same
neighborhood pair yield different records — (0,1) routes along the edge
(finite distance), (1,0) has no path (infinite distance) — so the cached
record cannot be a function of the unordered pair. -/
theorem cache_par_ordenado_contraexemplo :
    ((rota_entre_bairros otimizadorExemplo 0 1).map fun r => r.1.dist) = some (some 1) ∧
    ((rota_entre_bairros otimizadorExemplo 1 0).map fun r => r.1.dist) = some none := by
  constructor <;>
    norm_num [otimizadorExemplo, otimizador_init, rota_entre_bairros, rota_pura,
      encontrar_no_mais_proximo, preparar_grafo, nosDoGrafo, idx_do_minimo, distL1,
      calcular_rota_individual, extremos, dijkstra_path, dfsPath, sucessores,
      List.lookup, List.min?, List.indexOf, List.findIdx, List.findIdx.go,
      List.findSome?, List.dedup_cons_of_not_mem, List.flatMap, cond_eq_if,
      beq_iff_eq, Prod.ext_iff, List.cons_ne_nil, ne_eq]

/-- C5 (amended): the cache is keyed by the ORDERED pair
`(idx_origem, idx_destino)`: once a pair has been evaluated, re-evaluating
the same ordered pair returns the identical cached record and leaves the
optimizer state unchanged. -/
theorem rota_entre_bairros_cache_ordenado (s : Otimizador) (a b : ℕ)
    (dados : DadosRota) (s' : Otimizador)
    (h : rota_entre_bairros s a b = some (dados, s')) :
    rota_entre_bairros s' a b = some (dados, s') := by
  unfold rota_entre_bairros at h ⊢
  rcases hl : s.cache_rotas.lookup (a, b) with _ | dados₀
  · rw [hl] at h
    rcases hp : rota_pura s a b with _ | dd
    · rw [hp] at h
      cases h
    · rw [hp] at h
      simp only [Option.some.injEq, Prod.mk.injEq] at h
      obtain ⟨rfl, rfl⟩ := h
      simp [List.lookup]
  · rw [hl] at h
    simp only [Option.some.injEq, Prod.mk.injEq] at h
    obtain ⟨rfl, rfl⟩ := h
    rw [hl]

/-- Witness for the amended C5 on the concrete optimizer: the state holding
the cached (0,1) record returns it unchanged. -/
theorem rota_entre_bairros_cache_ordenado_witness :
    rota_entre_bairros
        { otimizadorExemplo with cache_rotas := [((0, 1), dadosExemplo)] } 0 1 =
      some (dadosExemplo,
        { otimizadorExemplo with cache_rotas := [((0, 1), dadosExemplo)] }) :=
  rota_entre_bairros_cache_ordenado otimizadorExemplo 0 1 dadosExemplo
    { otimizadorExemplo with cache_rotas := [((0, 1), dadosExemplo)] }
    (by norm_num [otimizadorExemplo, otimizador_init, dadosExemplo, rota_entre_bairros,
      rota_pura, encontrar_no_mais_proximo, preparar_grafo, nosDoGrafo, idx_do_minimo,
      distL1, calcular_rota_individual, extremos, dijkstra_path, dfsPath, sucessores,
      List.lookup, List.min?, List.indexOf, List.findIdx, List.findIdx.go,
      List.findSome?, List.dedup_cons_of_not_mem, List.flatMap, cond_eq_if,
      beq_iff_eq, Prod.ext_iff, List.cons_ne_nil, ne_eq])

lemma mem_of_lookup_eq_some {β : Type} :
    ∀ (l : List (Gene × β)) (k : Gene) (v : β), l.lookup k = some v → (k, v) ∈ l := by
  intro l k v h
  induction l with
  | nil => cases h
  | cons p rest ih =>
    rw [List.lookup_cons] at h
    rcases hk : k == p.1 with _ | _
    · rw [hk] at h
      exact List.mem_cons_of_mem _ (ih h)
    · rw [hk] at h
      cases h
      have hkp : k = p.1 := beq_iff_eq.mp hk
      subst hkp
      exact List.mem_cons_self _ _

/-- The f1 contribution of one gene under the cache-free route function:
the routed distance, or the fixed 100000 penalty when no route exists. -/
def contribuicao (s : Otimizador) (g : Gene) : ℚ :=
  match rota_pura s g.1 g.2 with
  | some dados =>
    match dados.dist with
    | none => 100000
    | some dist => dist
  | none => 0

/-- The neighborhoods a gene contributes to the portfolio's coverage set
(none when the gene has no feasible route). -/
def bairros_do_gene (s : Otimizador) (g : Gene) : Finset String :=
  match rota_pura s g.1 g.2 with
  | some dados =>
    match dados.dist with
    | none => ∅
    | some _ => dados.bairros
  | none => ∅

/-- The union of neighborhoods touched by a portfolio's feasible routes. -/
def bairros_do_individuo (s : Otimizador) (individual : List Gene) : Finset String :=
  individual.foldr (fun g acc => bairros_do_gene s g ∪ acc) ∅

/-- The cache stores exactly what the cache-free computation yields. -/
def CacheCoerente (s : Otimizador) : Prop :=
  ∀ g dados, (g, dados) ∈ s.cache_rotas → rota_pura s g.1 g.2 = some dados

/-- Two optimizer states agreeing on everything but the route cache. -/
def MesmoNucleo (s s' : Otimizador) : Prop :=
  s'.d = s.d ∧ s'.grafo = s.grafo ∧ s'.centroides = s.centroides ∧
    s'.atendidos = s.atendidos ∧ s'.comprimento = s.comprimento ∧
    s'.qtd_bairros = s.qtd_bairros ∧
    s'.nos_grafo_multipoint = s.nos_grafo_multipoint

lemma rota_pura_nucleo {s s' : Otimizador} (h : MesmoNucleo s s') :
    rota_pura s' = rota_pura s := by
  obtain ⟨h1, h2, h3, h4, h5, h6, h7⟩ := h
  funext a b
  unfold rota_pura
  rw [h1, h2, h3, h4, h5, h7]

lemma contribuicao_nucleo {s s' : Otimizador} (h : MesmoNucleo s s') :
    contribuicao s' = contribuicao s := by
  funext g
  unfold contribuicao
  rw [rota_pura_nucleo h]

lemma bairros_do_gene_nucleo {s s' : Otimizador} (h : MesmoNucleo s s') :
    bairros_do_gene s' = bairros_do_gene s := by
  funext g
  unfold bairros_do_gene
  rw [rota_pura_nucleo h]

/-- On a coherent state, `_rota_entre_bairros` returns exactly the
cache-free record and moves to a coherent state with the same core. -/
lemma rota_entre_bairros_coerente {s : Otimizador} {a b : ℕ} {dados : DadosRota}
    (hcoer : CacheCoerente s) (hp : rota_pura s a b = some dados) :
    ∃ s', rota_entre_bairros s a b = some (dados, s') ∧ MesmoNucleo s s' ∧
      CacheCoerente s' := by
  unfold rota_entre_bairros
  rcases hl : s.cache_rotas.lookup (a, b) with _ | d₀
  · rw [hp]
    refine ⟨_, rfl, ⟨rfl, rfl, rfl, rfl, rfl, rfl, rfl⟩, ?_⟩
    have hnuc : MesmoNucleo s
        { s with cache_rotas := ((a, b), dados) :: s.cache_rotas } :=
      ⟨rfl, rfl, rfl, rfl, rfl, rfl, rfl⟩
    intro g dd hmem
    rw [show rota_pura { s with cache_rotas := ((a, b), dados) :: s.cache_rotas } g.1 g.2 =
      rota_pura s g.1 g.2 from congrFun (congrFun (rota_pura_nucleo hnuc) g.1) g.2]
    rcases List.mem_cons.mp hmem with heq | hmem'
    · injection heq with hg hdd
      subst hg
      subst hdd
      exact hp
    · exact hcoer g dd hmem'
  · have hmem := mem_of_lookup_eq_some s.cache_rotas (a, b) d₀ hl
    have hval := hcoer (a, b) d₀ hmem
    rw [hp] at hval
    injection hval with hval
    subst hval
    exact ⟨s, rfl, ⟨rfl, rfl, rfl, rfl, rfl, rfl, rfl⟩, hcoer⟩

lemma bairros_do_individuo_nucleo {s s' : Otimizador} (h : MesmoNucleo s s')
    (individual : List Gene) :
    bairros_do_individuo s' individual = bairros_do_individuo s individual := by
  unfold bairros_do_individuo
  rw [bairros_do_gene_nucleo h]

/-- Closed form of the fitness loop: starting from accumulators
`(total, bairros)`, the loop adds each gene's contribution (distance or
the fixed 100000 penalty) and unions each feasible gene's neighborhoods. -/
lemma evaluate_loop_closed :
    ∀ (individual : List Gene) (s : Otimizador) (total : ℚ) (bairros : Finset String),
      CacheCoerente s → (∀ g ∈ individual, (rota_pura s g.1 g.2).isSome) →
      (evaluate_loop s individual total bairros).map (fun r => r.1) =
        some (total + (individual.map (contribuicao s)).sum,
          1 - ((bairros ∪ bairros_do_individuo s individual).card : ℚ) /
            (s.qtd_bairros : ℚ)) := by
  intro individual
  induction individual with
  | nil =>
    intro s total bairros _ _
    simp [evaluate_loop, bairros_do_individuo]
  | cons g resto ih =>
    intro s total bairros hcoer hok
    obtain ⟨o, dst⟩ := g
    obtain ⟨dados, hdados⟩ := Option.isSome_iff_exists.mp
      (hok (o, dst) (List.mem_cons_self _ _))
    obtain ⟨s', hrb, hnuc, hcoer'⟩ := rota_entre_bairros_coerente hcoer hdados
    have hok' : ∀ g ∈ resto, (rota_pura s' g.1 g.2).isSome := by
      intro g hg
      rw [rota_pura_nucleo hnuc]
      exact hok g (List.mem_cons_of_mem _ hg)
    have hqtd : s'.qtd_bairros = s.qtd_bairros := hnuc.2.2.2.2.2.1
    have hind : bairros_do_individuo s ((o, dst) :: resto) =
        bairros_do_gene s (o, dst) ∪ bairros_do_individuo s resto := rfl
    simp only [evaluate_loop, hrb]
    rcases hdist : dados.dist with _ | dist
    · have hres := ih s' (total + 100000) bairros hcoer' hok'
      rw [hres, contribuicao_nucleo hnuc, bairros_do_individuo_nucleo hnuc, hqtd]
      have hcontrib : contribuicao s (o, dst) = 100000 := by
        unfold contribuicao
        rw [hdados]
        simp only [hdist]
      have hgene : bairros_do_gene s (o, dst) = ∅ := by
        unfold bairros_do_gene
        rw [hdados]
        simp only [hdist]
      rw [List.map_cons, List.sum_cons, hcontrib, hind, hgene, Finset.empty_union,
        add_assoc]
    · have hres := ih s' (total + dist) (bairros ∪ dados.bairros) hcoer' hok'
      rw [hres, contribuicao_nucleo hnuc, bairros_do_individuo_nucleo hnuc, hqtd]
      have hcontrib : contribuicao s (o, dst) = dist := by
        unfold contribuicao
        rw [hdados]
        simp only [hdist]
      have hgene : bairros_do_gene s (o, dst) = dados.bairros := by
        unfold bairros_do_gene
        rw [hdados]
        simp only [hdist]
      rw [List.map_cons, List.sum_cons, hcontrib, hind, hgene, Finset.union_assoc,
        add_assoc]

/-- C8: the fitness of a portfolio is
`f1 = Σ` over genes of the routed distance with each infeasible gene
contributing exactly the fixed 100000 penalty (infeasible genes are never
dropped, and the evaluation is total — no crash), and
`f2 = 1 − |∪ neighborhoods touched| / qtd_bairros`. -/
theorem evaluate_fitness_formula (s : Otimizador) (individual : List Gene)
    (hcoer : CacheCoerente s)
    (hok : ∀ g ∈ individual, (rota_pura s g.1 g.2).isSome) :
    (evaluate s individual).map (fun r => r.1) =
      some ((individual.map (contribuicao s)).sum,
        1 - ((bairros_do_individuo s individual).card : ℚ) /
          (s.qtd_bairros : ℚ)) := by
  have hres := evaluate_loop_closed individual s 0 ∅ hcoer hok
  rw [evaluate, hres]
  simp

/-- Witness for C8 on the concrete optimizer, with one feasible gene (0,1)
and one infeasible gene (1,0). -/
theorem evaluate_fitness_formula_witness :
    (evaluate otimizadorExemplo [(0, 1), (1, 0)]).map (fun r => r.1) =
      some ((([((0 : ℕ), (1 : ℕ)), (1, 0)]).map (contribuicao otimizadorExemplo)).sum,
        1 - ((bairros_do_individuo otimizadorExemplo [(0, 1), (1, 0)]).card : ℚ) /
          (otimizadorExemplo.qtd_bairros : ℚ)) :=
  evaluate_fitness_formula otimizadorExemplo [(0, 1), (1, 0)]
    (by
      intro g dd h
      simp only [otimizadorExemplo, otimizador_init] at h
      exact absurd h (List.not_mem_nil _))
    (by
      intro g hg
      rcases List.mem_cons.mp hg with rfl | hg'
      · norm_num [otimizadorExemplo, otimizador_init, rota_pura,
          encontrar_no_mais_proximo, preparar_grafo, nosDoGrafo, idx_do_minimo,
          distL1, calcular_rota_individual, extremos, dijkstra_path, dfsPath,
          sucessores, List.min?, List.indexOf, List.findIdx, List.findIdx.go,
          List.findSome?, List.dedup_cons_of_not_mem, List.flatMap, cond_eq_if,
          beq_iff_eq, Prod.ext_iff, List.cons_ne_nil, ne_eq]
      · rcases List.mem_singleton.mp hg' with rfl
        norm_num [otimizadorExemplo, otimizador_init, rota_pura,
          encontrar_no_mais_proximo, preparar_grafo, nosDoGrafo, idx_do_minimo,
          distL1, calcular_rota_individual, extremos, dijkstra_path, dfsPath,
          sucessores, List.min?, List.indexOf, List.findIdx, List.findIdx.go,
          List.findSome?, List.dedup_cons_of_not_mem, List.flatMap, cond_eq_if,
          beq_iff_eq, Prod.ext_iff, List.cons_ne_nil, ne_eq])
